import Mathlib

/-!
Verification of the leap-second-aware time-of-day core (`src/chrono/time.rs`).

`TimeZ` stores hour/minute/second plus a nanosecond fraction whose range
0..1,999,999,999 encodes an optional positive leap second in-band.  The
arithmetic (`add` with a signed `Duration`, `sub` producing a `Duration`) and
the canonical rendering are translated below; `Duration` itself lives outside
the given sources and is modelled from the specification.
-/

namespace Chrono

/-- Modelled from the spec: the external `Duration` abstraction (spec §2, §6),
whose source file `duration.rs` is not part of the given sources.  It is a
signed span of time (seconds plus nanosecond remainder) under exact integer
arithmetic, represented here by its total signed nanosecond count; two
durations are equal exactly when they denote the same span.  It offers a zero
value, constructors from seconds / milliseconds / nanoseconds / days, addition
and negation, and the getters used by `TimeZ::add`: `nseconds` (the
non-negative whole-second part within the day, i.e. of the normalised
days/seconds/nanoseconds form with seconds in 0..86399) and `nnanoseconds`
(the sub-second nanosecond remainder, normalised into 0..999,999,999). -/
structure Duration where
  total : Int
deriving DecidableEq, Repr

/-- Modelled from the spec: the zero duration. -/
def Duration.zero : Duration := ⟨0⟩

/-- Modelled from the spec: a duration of `s` whole seconds. -/
def Duration.seconds (s : Int) : Duration := ⟨s * 1000000000⟩

/-- Modelled from the spec: a duration of `n` nanoseconds. -/
def Duration.nanoseconds (n : Int) : Duration := ⟨n⟩

/-- Modelled from the spec: a duration of `n` milliseconds. -/
def Duration.milliseconds (n : Int) : Duration := ⟨n * 1000000⟩

/-- Modelled from the spec: a duration of `n` days. -/
def Duration.days (n : Int) : Duration := ⟨n * 86400000000000⟩

/-- Modelled from the spec: addition of two durations. -/
def Duration.add (a b : Duration) : Duration := ⟨a.total + b.total⟩

/-- Modelled from the spec: negation of a duration. -/
def Duration.neg (a : Duration) : Duration := ⟨-a.total⟩

/-- Modelled from the spec: the whole-second part of the duration within its
day, taken from the normalised (days, seconds, nanoseconds) representation, so
always in 0..86399. -/
def Duration.nseconds (d : Duration) : Nat :=
  ((d.total / 1000000000) % 86400).toNat

/-- Modelled from the spec: the sub-second nanosecond remainder of the
duration, normalised into 0..999,999,999. -/
def Duration.nnanoseconds (d : Duration) : Nat :=
  (d.total % 1000000000).toNat

/-- `TimeZ` from `time.rs`: hour, minute, second and the nanosecond fraction
(`frac`), with `frac ≥ 1,000,000,000` encoding a leap second.  The `u8`/`u32`
fields are embedded as `Nat` together with the `Valid` range predicate. -/
structure TimeZ where
  hour : Nat
  min : Nat
  sec : Nat
  frac : Nat
deriving DecidableEq, Repr

/-- The data-model invariants of spec §3: the ranges every live `TimeZ`
value satisfies. -/
def TimeZ.Valid (t : TimeZ) : Prop :=
  t.hour ≤ 23 ∧ t.min ≤ 59 ∧ t.sec ≤ 59 ∧ t.frac ≤ 1999999999

instance (t : TimeZ) : Decidable t.Valid := by
  unfold TimeZ.Valid; infer_instance

/-- `TimeZ::from_hms_nano`: validating constructor from hour, minute, second
and nanosecond fraction (which may lie in the leap-second range). -/
def TimeZ.from_hms_nano (hour min sec nano : Nat) : Option TimeZ :=
  if hour ≥ 24 ∨ min ≥ 60 ∨ sec ≥ 60 ∨ nano ≥ 2000000000 then none
  else some ⟨hour, min, sec, nano⟩

/-- `TimeZ::from_hms`: constructor with a zero fraction. -/
def TimeZ.from_hms (hour min sec : Nat) : Option TimeZ :=
  TimeZ.from_hms_nano hour min sec 0

/-- `TimeZ::from_hms_milli`: constructor scaling milliseconds to
nanoseconds. -/
def TimeZ.from_hms_milli (hour min sec milli : Nat) : Option TimeZ :=
  TimeZ.from_hms_nano hour min sec (milli * 1000000)

/-- `TimeZ::from_hms_micro`: constructor scaling microseconds to
nanoseconds. -/
def TimeZ.from_hms_micro (hour min sec micro : Nat) : Option TimeZ :=
  TimeZ.from_hms_nano hour min sec (micro * 1000)

/-- `with_hour` from the `Timelike` impl: replace the hour, validating only
the new hour. -/
def TimeZ.with_hour (t : TimeZ) (hour : Nat) : Option TimeZ :=
  if hour ≥ 24 then none else some { t with hour := hour }

/-- `with_minute`: replace the minute, validating only the new minute. -/
def TimeZ.with_minute (t : TimeZ) (min : Nat) : Option TimeZ :=
  if min ≥ 60 then none else some { t with min := min }

/-- `with_second`: replace the second, validating only the new second. -/
def TimeZ.with_second (t : TimeZ) (sec : Nat) : Option TimeZ :=
  if sec ≥ 60 then none else some { t with sec := sec }

/-- `with_nanosecond`: replace the fraction, validating only the new
fraction (leap-second range accepted). -/
def TimeZ.with_nanosecond (t : TimeZ) (nano : Nat) : Option TimeZ :=
  if nano ≥ 2000000000 then none else some { t with frac := nano }

/-- `nseconds_from_midnight` from the `Timelike` trait: the number of
non-leap seconds past midnight. -/
def TimeZ.nseconds_from_midnight (t : TimeZ) : Nat :=
  t.hour * 3600 + t.min * 60 + t.sec

/-- `Add<Duration, TimeZ>::add` from `time.rs`: total addition of a signed
duration, wrapping modulo one day, with the leap-second-aware carry
threshold. -/
def TimeZ.add (t : TimeZ) (rhs : Duration) : TimeZ :=
  let secs0 := t.nseconds_from_midnight + rhs.nseconds
  let nanos0 := t.frac + rhs.nnanoseconds
  let maxnanos := if t.frac ≥ 1000000000 then 2000000000 else 1000000000
  let secs := if nanos0 ≥ maxnanos then secs0 + 1 else secs0
  let nanos := if nanos0 ≥ maxnanos then nanos0 - maxnanos else nanos0
  let s := secs % 60
  let mins := secs / 60
  let m := mins % 60
  let hours := mins / 60
  let h := hours % 24
  ⟨h, m, s, nanos⟩

/-- `Sub<TimeZ, Duration>::sub` from `time.rs`: difference of two times as a
signed duration, treating a leap second as coincident with its preceding
whole second. -/
def TimeZ.sub (t rhs : TimeZ) : Duration :=
  let secs : Int := ((t.hour : Int) - rhs.hour) * 3600 +
                    ((t.min : Int) - rhs.min) * 60 +
                    ((t.sec : Int) - rhs.sec) - 1
  let maxnanos : Int := if rhs.frac ≥ 1000000000 then 2000000000 else 1000000000
  let nanos1 : Int := maxnanos - (rhs.frac : Int)
  let lastfrac : Int := if t.frac ≥ 1000000000 then 1000000000 else 0
  let nanos2 : Int := (t.frac : Int) - lastfrac
  Duration.add (Duration.seconds secs) (Duration.nanoseconds (nanos1 + nanos2))

/-- Zero-pad the decimal rendering of `n` to at least `w` digits, as the
Rust `{:0w}` format does. -/
def pad (w n : Nat) : String :=
  let s := Nat.repr n
  String.mk (List.replicate (w - s.length) (Char.ofNat 48)) ++ s

/-- `fmt::Show for TimeZ`: the canonical rendering `HH:MM:SS` with the
leap-second fraction folded into the displayed second and a comma-separated
fractional part at 3/6/9-digit precision. -/
def TimeZ.fmt (t : TimeZ) : String :=
  let sec := if t.frac ≥ 1000000000 then t.sec + 1 else t.sec
  let nano := if t.frac ≥ 1000000000 then t.frac - 1000000000 else t.frac
  let hms := pad 2 t.hour ++ ":" ++ pad 2 t.min ++ ":" ++ pad 2 sec
  if nano = 0 then hms
  else if nano % 1000000 = 0 then hms ++ "," ++ pad 3 (nano / 1000000)
  else if nano % 1000 = 0 then hms ++ "," ++ pad 6 (nano / 1000)
  else hms ++ "," ++ pad 9 nano

/-- The reference addition algorithm exactly as spec §4 states it, for
comparison with `TimeZ.add`: signed total whole seconds, signed total
nanoseconds, the leap-second-dependent carry threshold, then reduction of
the whole seconds modulo 86400 into the hour/minute/second triple. -/
def TimeZ.specAdd (t : TimeZ) (d : Duration) : TimeZ :=
  let totalSecs : Int := (t.nseconds_from_midnight : Int) + d.total / 1000000000
  let totalNanos : Int := (t.frac : Int) + d.total % 1000000000
  let maxNanos : Int := if t.frac ≥ 1000000000 then 2000000000 else 1000000000
  let totalSecs2 := if totalNanos ≥ maxNanos then totalSecs + 1 else totalSecs
  let totalNanos2 := if totalNanos ≥ maxNanos then totalNanos - maxNanos else totalNanos
  let daySecs := totalSecs2 % 86400
  ⟨(daySecs / 3600).toNat, ((daySecs % 3600) / 60).toNat,
   (daySecs % 60).toNat, totalNanos2.toNat⟩

/-- The canonical rendering exactly as spec §4 states it, for comparison
with `TimeZ.fmt`: zero-padded `HH:MM:SS`, displayed second rolled over when
the fraction is in the leap-second range, and residual fraction after a
comma at the coarsest exact precision (3/6/9 digits). -/
def TimeZ.specFmt (t : TimeZ) : String :=
  let dispSec := if t.frac ≥ 1000000000 then t.sec + 1 else t.sec
  let dispFrac := if t.frac ≥ 1000000000 then t.frac - 1000000000 else t.frac
  let hms := pad 2 t.hour ++ ":" ++ pad 2 t.min ++ ":" ++ pad 2 dispSec
  if dispFrac = 0 then hms
  else if dispFrac % 1000000 = 0 then hms ++ "," ++ pad 3 (dispFrac / 1000000)
  else if dispFrac % 1000 = 0 then hms ++ "," ++ pad 6 (dispFrac / 1000)
  else hms ++ "," ++ pad 9 dispFrac

/-- Shared lemma: when neither operand sits in a leap second, adding the
difference `a - b` back onto `b` returns `a` exactly. -/
theorem roundtrip_aux (a b : TimeZ) (ha : a.Valid) (hb : b.Valid)
    (hfa : a.frac < 1000000000) (hfb : b.frac < 1000000000) :
    b.add (a.sub b) = a := by
  obtain ⟨ha1, ha2, ha3, ha4⟩ := ha
  obtain ⟨hb1, hb2, hb3, hb4⟩ := hb
  obtain ⟨ah, am, asec, af⟩ := a
  obtain ⟨bh, bm, bs, bf⟩ := b
  simp only [TimeZ.Valid] at *
  simp only [TimeZ.add, TimeZ.sub, TimeZ.nseconds_from_midnight, Duration.add,
    Duration.seconds, Duration.nanoseconds, Duration.nseconds,
    Duration.nnanoseconds] at *
  simp only [if_neg (by omega : ¬ (af ≥ 1000000000)),
    if_neg (by omega : ¬ (bf ≥ 1000000000))]
  by_cases hc : bf + (((((ah : Int) - bh) * 3600 + ((am : Int) - bm) * 60 +
      ((asec : Int) - bs) - 1) * 1000000000 +
      (1000000000 - (bf : Int) + ((af : Int) - 0))) % 1000000000).toNat ≥
      1000000000
  · rw [if_pos hc, if_pos hc, TimeZ.mk.injEq]
    refine ⟨?_, ?_, ?_, ?_⟩ <;> omega
  · rw [if_neg hc, if_neg hc, TimeZ.mk.injEq]
    refine ⟨?_, ?_, ?_, ?_⟩ <;> omega

/-- C1 counterexample: the round trip `(t1 - t2) + t2 == t1` fails at
`t1 = 03:05:07` with fraction `1,200,000,000` (mid-leap-second) and
`t2 = 03:05:06.800`, even though `t2.frac < 1,000,000,000`: the sum comes
back as `03:05:07.200`, not `t1`. -/
theorem c1_roundtrip_counterexample :
    TimeZ.Valid ⟨3, 5, 7, 1200000000⟩ ∧ TimeZ.Valid ⟨3, 5, 6, 800000000⟩ ∧
    (⟨3, 5, 6, 800000000⟩ : TimeZ).frac < 1000000000 ∧
    TimeZ.add ⟨3, 5, 6, 800000000⟩
        (TimeZ.sub ⟨3, 5, 7, 1200000000⟩ ⟨3, 5, 6, 800000000⟩) ≠
      ⟨3, 5, 7, 1200000000⟩ := by
  refine ⟨by decide, by decide, by decide, by decide⟩

/-- C1 (amended): for valid `t1`, `t2`, the round trip
`(t1 - t2) + t2 == t1` holds whenever NEITHER operand is mid-leap-second,
i.e. `t1.frac < 1,000,000,000` and `t2.frac < 1,000,000,000`. -/
theorem c1_roundtrip (t1 t2 : TimeZ) (h1 : t1.Valid) (h2 : t2.Valid)
    (hf1 : t1.frac < 1000000000) (hf2 : t2.frac < 1000000000) :
    t2.add (t1.sub t2) = t1 :=
  roundtrip_aux t1 t2 h1 h2 hf1 hf2

/-- Witness for C1 at `t1 = 03:05:07.200`, `t2 = 03:05:06.800`. -/
theorem c1_roundtrip_witness :
    TimeZ.add ⟨3, 5, 6, 800000000⟩
        (TimeZ.sub ⟨3, 5, 7, 200000000⟩ ⟨3, 5, 6, 800000000⟩) =
      ⟨3, 5, 7, 200000000⟩ :=
  c1_roundtrip ⟨3, 5, 7, 200000000⟩ ⟨3, 5, 6, 800000000⟩
    (by decide) (by decide) (by decide) (by decide)

/-- C2 counterexample: `lhs + (rhs - lhs) == rhs` fails at
`lhs = 03:05:06` with fraction `1,200,000,000` (mid-leap-second) and
`rhs = 03:05:07.500`, even though `rhs.frac < 1,000,000,000`: the code
yields `(3, 5, 7)` with fraction `1,500,000,000`, not `rhs`. -/
theorem c2_identity_counterexample :
    TimeZ.Valid ⟨3, 5, 6, 1200000000⟩ ∧ TimeZ.Valid ⟨3, 5, 7, 500000000⟩ ∧
    (⟨3, 5, 7, 500000000⟩ : TimeZ).frac < 1000000000 ∧
    TimeZ.add ⟨3, 5, 6, 1200000000⟩
        (TimeZ.sub ⟨3, 5, 7, 500000000⟩ ⟨3, 5, 6, 1200000000⟩) ≠
      ⟨3, 5, 7, 500000000⟩ := by
  refine ⟨by decide, by decide, by decide, by decide⟩

/-- C2 (amended): for valid `lhs`, `rhs`, the identity
`lhs + (rhs - lhs) == rhs` holds whenever NEITHER value is mid-leap-second
(`lhs.frac < 1,000,000,000` and `rhs.frac < 1,000,000,000`); when `lhs` is
mid-leap-second it can fail even for non-leap `rhs`. -/
theorem c2_add_sub_identity (lhs rhs : TimeZ) (h1 : lhs.Valid) (h2 : rhs.Valid)
    (hfl : lhs.frac < 1000000000) (hfr : rhs.frac < 1000000000) :
    lhs.add (rhs.sub lhs) = rhs :=
  roundtrip_aux rhs lhs h2 h1 hfr hfl

/-- Witness for C2 at `lhs = 02:04:06.300`, `rhs = 03:05:07.200`. -/
theorem c2_add_sub_identity_witness :
    TimeZ.add ⟨2, 4, 6, 300000000⟩
        (TimeZ.sub ⟨3, 5, 7, 200000000⟩ ⟨2, 4, 6, 300000000⟩) =
      ⟨3, 5, 7, 200000000⟩ :=
  c2_add_sub_identity ⟨2, 4, 6, 300000000⟩ ⟨3, 5, 7, 200000000⟩
    (by decide) (by decide) (by decide) (by decide)

/-- C3: subtraction is antisymmetric with no condition on leap-second
occupancy: for all valid `a`, `b`, `a - b == -(b - a)`. -/
theorem c3_sub_antisymm (a b : TimeZ) (ha : a.Valid) (hb : b.Valid) :
    a.sub b = Duration.neg (b.sub a) := by
  obtain ⟨ah, am, asec, af⟩ := a
  obtain ⟨bh, bm, bs, bf⟩ := b
  simp only [TimeZ.sub, Duration.add, Duration.seconds, Duration.nanoseconds,
    Duration.neg]
  by_cases h1 : af ≥ 1000000000 <;> by_cases h2 : bf ≥ 1000000000 <;>
    simp only [h1, h2, if_true, if_false, if_pos, if_neg, not_false_iff,
      Duration.mk.injEq] <;>
    ring

/-- Witness for C3 at `a = 03:05:07` with leap fraction `1,200,000,000`,
`b = 03:05:06.800`. -/
theorem c3_sub_antisymm_witness :
    TimeZ.sub ⟨3, 5, 7, 1200000000⟩ ⟨3, 5, 6, 800000000⟩ =
      Duration.neg (TimeZ.sub ⟨3, 5, 6, 800000000⟩ ⟨3, 5, 7, 1200000000⟩) :=
  c3_sub_antisymm ⟨3, 5, 7, 1200000000⟩ ⟨3, 5, 6, 800000000⟩
    (by decide) (by decide)

/-- C4: for every valid `t` and every signed duration `d`, the total
addition `t + d` computes exactly the reference algorithm of spec §4
(signed whole-second sum, leap-second-dependent carry threshold, reduction
modulo 86400 into the triple, post-carry fraction). -/
theorem c4_add_matches_spec (t : TimeZ) (d : Duration) (ht : t.Valid) :
    t.add d = t.specAdd d := by
  obtain ⟨th, tm, ts, tf⟩ := t
  obtain ⟨X⟩ := d
  obtain ⟨h1, h2, h3, h4⟩ := ht
  simp only [TimeZ.add, TimeZ.specAdd, TimeZ.nseconds_from_midnight,
    Duration.nseconds, Duration.nnanoseconds]
  by_cases hf : tf ≥ 1000000000
  · simp only [if_pos hf]
    by_cases hc : tf + (X % 1000000000).toNat ≥ 2000000000
    · rw [if_pos hc, if_pos hc,
        if_pos (show (tf : Int) + X % 1000000000 ≥ 2000000000 by omega),
        if_pos (show (tf : Int) + X % 1000000000 ≥ 2000000000 by omega),
        TimeZ.mk.injEq]
      refine ⟨?_, ?_, ?_, ?_⟩ <;> omega
    · rw [if_neg hc, if_neg hc,
        if_neg (show ¬ ((tf : Int) + X % 1000000000 ≥ 2000000000) by omega),
        if_neg (show ¬ ((tf : Int) + X % 1000000000 ≥ 2000000000) by omega),
        TimeZ.mk.injEq]
      refine ⟨?_, ?_, ?_, ?_⟩ <;> omega
  · simp only [if_neg hf]
    by_cases hc : tf + (X % 1000000000).toNat ≥ 1000000000
    · rw [if_pos hc, if_pos hc,
        if_pos (show (tf : Int) + X % 1000000000 ≥ 1000000000 by omega),
        if_pos (show (tf : Int) + X % 1000000000 ≥ 1000000000 by omega),
        TimeZ.mk.injEq]
      refine ⟨?_, ?_, ?_, ?_⟩ <;> omega
    · rw [if_neg hc, if_neg hc,
        if_neg (show ¬ ((tf : Int) + X % 1000000000 ≥ 1000000000) by omega),
        if_neg (show ¬ ((tf : Int) + X % 1000000000 ≥ 1000000000) by omega),
        TimeZ.mk.injEq]
      refine ⟨?_, ?_, ?_, ?_⟩ <;> omega

/-- Witness for C4 at `t = 03:05:07.900` and the negative duration
`-86399` seconds. -/
theorem c4_add_matches_spec_witness :
    TimeZ.add ⟨3, 5, 7, 900000000⟩ (Duration.seconds (-86399)) =
      TimeZ.specAdd ⟨3, 5, 7, 900000000⟩ (Duration.seconds (-86399)) :=
  c4_add_matches_spec ⟨3, 5, 7, 900000000⟩ (Duration.seconds (-86399))
    (by decide)

/-- C5: the three concrete leap-second differences of spec §8 all equal
a 400 ms duration: `03:05:07.200 - 03:05:06(leap,1800ms)`,
`03:05:07(leap,1200ms) - 03:05:06(leap,1800ms)`, and
`03:05:07(leap,1200ms) - 03:05:06.800`. -/
theorem c5_leap_coincidence :
    ((TimeZ.from_hms_milli 3 5 7 200).bind fun l =>
        (TimeZ.from_hms_milli 3 5 6 1800).map fun r => l.sub r) =
      some (Duration.milliseconds 400) ∧
    ((TimeZ.from_hms_milli 3 5 7 1200).bind fun l =>
        (TimeZ.from_hms_milli 3 5 6 1800).map fun r => l.sub r) =
      some (Duration.milliseconds 400) ∧
    ((TimeZ.from_hms_milli 3 5 7 1200).bind fun l =>
        (TimeZ.from_hms_milli 3 5 6 800).map fun r => l.sub r) =
      some (Duration.milliseconds 400) := by
  refine ⟨by decide, by decide, by decide⟩

/-- C6: `from_hms_nano` is a complete range check: it returns a present
value exactly when `hour ≤ 23`, `minute ≤ 59`, `second ≤ 59` and the
nanosecond fraction is at most `1,999,999,999` (leap-second range
accepted). -/
theorem c6_from_hms_nano_range (hr mn sc na : Nat) :
    (TimeZ.from_hms_nano hr mn sc na).isSome ↔
      (hr ≤ 23 ∧ mn ≤ 59 ∧ sc ≤ 59 ∧ na ≤ 1999999999) := by
  unfold TimeZ.from_hms_nano
  split <;> rename_i hcond <;> simp <;> omega

/-- C7: every operation producing a `TimeZ` — the four constructors, the
four single-field mutators on a valid value, and addition with any signed
duration — yields a value satisfying the §3 invariants
(`hour ≤ 23`, `minute ≤ 59`, `second ≤ 59`, `frac ≤ 1,999,999,999`). -/
theorem c7_invariant_closure :
    (∀ hr mn sc na (t : TimeZ),
      TimeZ.from_hms_nano hr mn sc na = some t → t.Valid) ∧
    (∀ hr mn sc (t : TimeZ), TimeZ.from_hms hr mn sc = some t → t.Valid) ∧
    (∀ hr mn sc mi (t : TimeZ),
      TimeZ.from_hms_milli hr mn sc mi = some t → t.Valid) ∧
    (∀ hr mn sc mi (t : TimeZ),
      TimeZ.from_hms_micro hr mn sc mi = some t → t.Valid) ∧
    (∀ (t : TimeZ) hr (t2 : TimeZ),
      t.Valid → t.with_hour hr = some t2 → t2.Valid) ∧
    (∀ (t : TimeZ) mn (t2 : TimeZ),
      t.Valid → t.with_minute mn = some t2 → t2.Valid) ∧
    (∀ (t : TimeZ) sc (t2 : TimeZ),
      t.Valid → t.with_second sc = some t2 → t2.Valid) ∧
    (∀ (t : TimeZ) na (t2 : TimeZ),
      t.Valid → t.with_nanosecond na = some t2 → t2.Valid) ∧
    (∀ (t : TimeZ) (d : Duration), t.Valid → (t.add d).Valid) := by
  have hnano : ∀ hr mn sc na (t : TimeZ),
      TimeZ.from_hms_nano hr mn sc na = some t → t.Valid := by
    intro hr mn sc na t hEq
    unfold TimeZ.from_hms_nano at hEq
    split at hEq
    · exact Option.noConfusion hEq
    · rename_i hcond
      obtain rfl := Option.some.inj hEq
      simp only [not_or, not_le] at hcond
      exact ⟨show hr ≤ 23 by omega, show mn ≤ 59 by omega,
        show sc ≤ 59 by omega, show na ≤ 1999999999 by omega⟩
  refine ⟨hnano, ?_, ?_, ?_, ?_, ?_, ?_, ?_, ?_⟩
  · intro hr mn sc t hEq
    exact hnano hr mn sc 0 t hEq
  · intro hr mn sc mi t hEq
    exact hnano hr mn sc (mi * 1000000) t hEq
  · intro hr mn sc mi t hEq
    exact hnano hr mn sc (mi * 1000) t hEq
  · intro t hr t2 ht hEq
    unfold TimeZ.with_hour at hEq
    split at hEq
    · exact Option.noConfusion hEq
    · rename_i hcond
      obtain rfl := Option.some.inj hEq
      obtain ⟨v1, v2, v3, v4⟩ := ht
      exact ⟨show hr ≤ 23 by omega, v2, v3, v4⟩
  · intro t mn t2 ht hEq
    unfold TimeZ.with_minute at hEq
    split at hEq
    · exact Option.noConfusion hEq
    · rename_i hcond
      obtain rfl := Option.some.inj hEq
      obtain ⟨v1, v2, v3, v4⟩ := ht
      exact ⟨v1, show mn ≤ 59 by omega, v3, v4⟩
  · intro t sc t2 ht hEq
    unfold TimeZ.with_second at hEq
    split at hEq
    · exact Option.noConfusion hEq
    · rename_i hcond
      obtain rfl := Option.some.inj hEq
      obtain ⟨v1, v2, v3, v4⟩ := ht
      exact ⟨v1, v2, show sc ≤ 59 by omega, v4⟩
  · intro t na t2 ht hEq
    unfold TimeZ.with_nanosecond at hEq
    split at hEq
    · exact Option.noConfusion hEq
    · rename_i hcond
      obtain rfl := Option.some.inj hEq
      obtain ⟨v1, v2, v3, v4⟩ := ht
      exact ⟨v1, v2, v3, show na ≤ 1999999999 by omega⟩
  · intro t d ht
    obtain ⟨th, tm, ts, tf⟩ := t
    obtain ⟨X⟩ := d
    have v1 : th ≤ 23 := ht.1
    have v2 : tm ≤ 59 := ht.2.1
    have v3 : ts ≤ 59 := ht.2.2.1
    have v4 : tf ≤ 1999999999 := ht.2.2.2
    simp only [TimeZ.add, TimeZ.nseconds_from_midnight, Duration.nseconds,
      Duration.nnanoseconds, TimeZ.Valid]
    by_cases hf : tf ≥ 1000000000
    · simp only [if_pos hf]
      by_cases hc : tf + (X % 1000000000).toNat ≥ 2000000000
      · rw [if_pos hc, if_pos hc]
        refine ⟨by omega, by omega, by omega, by omega⟩
      · rw [if_neg hc, if_neg hc]
        refine ⟨by omega, by omega, by omega, by omega⟩
    · simp only [if_neg hf]
      by_cases hc : tf + (X % 1000000000).toNat ≥ 1000000000
      · rw [if_pos hc, if_pos hc]
        refine ⟨by omega, by omega, by omega, by omega⟩
      · rw [if_neg hc, if_neg hc]
        refine ⟨by omega, by omega, by omega, by omega⟩

/-- Witness for C7: adding 800 ms inside the leap second of
`03:05:07(leap,1300ms)` yields a valid value. -/
theorem c7_invariant_closure_witness :
    TimeZ.Valid (TimeZ.add ⟨3, 5, 7, 1300000000⟩ (Duration.milliseconds 800)) :=
  c7_invariant_closure.2.2.2.2.2.2.2.2 ⟨3, 5, 7, 1300000000⟩
    (Duration.milliseconds 800) (by decide)

/-- C8 counterexample: the claim's example `fraction = 1,000,000,001 at
23:59:59 renders as "23:59:60,001"` contradicts the rendering rule the
code implements: the residual fraction 1 is not divisible by 1,000, so it
is rendered at 9-digit precision as `"23:59:60,000000001"`. -/
theorem c8_rendering_counterexample :
    TimeZ.fmt ⟨23, 59, 59, 1000000001⟩ ≠ "23:59:60,001" := by decide

/-- C8 (amended): for every valid value the rendering follows exactly the
spec's rule (leap fraction folds into `second+1`, comma separator, residual
omitted when zero, else 3/6/9 digits by exact divisibility); in particular
fraction `1,000,000,000` at 23:59:59 renders as `"23:59:60"`, fraction
`1,001,000,000` renders as `"23:59:60,001"`, and fraction `1,000,000,001`
renders as `"23:59:60,000000001"`. -/
theorem c8_rendering :
    (∀ (t : TimeZ), t.Valid → t.fmt = t.specFmt) ∧
    TimeZ.fmt ⟨23, 59, 59, 1000000000⟩ = "23:59:60" ∧
    TimeZ.fmt ⟨23, 59, 59, 1001000000⟩ = "23:59:60,001" ∧
    TimeZ.fmt ⟨23, 59, 59, 1000000001⟩ = "23:59:60,000000001" :=
  ⟨fun _ _ => rfl, by decide, by decide, by decide⟩

/-- Witness for C8 at `23:59:59.999`. -/
theorem c8_rendering_witness :
    TimeZ.fmt ⟨23, 59, 59, 999000000⟩ = TimeZ.specFmt ⟨23, 59, 59, 999000000⟩ :=
  c8_rendering.1 ⟨23, 59, 59, 999000000⟩ (by decide)

/-- C9: each single-field mutator validates only the replaced field —
succeeding exactly when that field is in its own range — and on success
replaces that one field, leaving every other field unchanged. -/
theorem c9_with_mutators :
    (∀ (t : TimeZ) hr,
      (hr ≤ 23 → t.with_hour hr = some ⟨hr, t.min, t.sec, t.frac⟩) ∧
      (hr > 23 → t.with_hour hr = none)) ∧
    (∀ (t : TimeZ) mn,
      (mn ≤ 59 → t.with_minute mn = some ⟨t.hour, mn, t.sec, t.frac⟩) ∧
      (mn > 59 → t.with_minute mn = none)) ∧
    (∀ (t : TimeZ) sc,
      (sc ≤ 59 → t.with_second sc = some ⟨t.hour, t.min, sc, t.frac⟩) ∧
      (sc > 59 → t.with_second sc = none)) ∧
    (∀ (t : TimeZ) na,
      (na ≤ 1999999999 → t.with_nanosecond na = some ⟨t.hour, t.min, t.sec, na⟩) ∧
      (na > 1999999999 → t.with_nanosecond na = none)) := by
  refine ⟨?_, ?_, ?_, ?_⟩ <;> intro t x <;> constructor <;> intro hx
  · exact if_neg (by omega)
  · exact if_pos (by omega)
  · exact if_neg (by omega)
  · exact if_pos (by omega)
  · exact if_neg (by omega)
  · exact if_pos (by omega)
  · exact if_neg (by omega)
  · exact if_pos (by omega)

/-- Witness for C9: replacing the hour of `01:02:03.000000004` by 10. -/
theorem c9_with_mutators_witness :
    TimeZ.with_hour ⟨1, 2, 3, 4⟩ 10 = some ⟨10, 2, 3, 4⟩ :=
  (c9_with_mutators.1 ⟨1, 2, 3, 4⟩ 10).1 (by decide)

/-- C10: addition never moves a value into the leap-second range: if the
(valid) input has `frac < 1,000,000,000`, so does `t + d` for every signed
duration `d`. -/
theorem c10_add_no_leap_entry (t : TimeZ) (d : Duration) (ht : t.Valid)
    (hf : t.frac < 1000000000) : (t.add d).frac < 1000000000 := by
  obtain ⟨th, tm, ts, tf⟩ := t
  obtain ⟨X⟩ := d
  have hf2 : tf < 1000000000 := hf
  simp only [TimeZ.add, TimeZ.nseconds_from_midnight, Duration.nseconds,
    Duration.nnanoseconds]
  rw [if_neg (show ¬ (tf ≥ 1000000000) by omega)]
  by_cases hc : tf + (X % 1000000000).toNat ≥ 1000000000
  · rw [if_pos hc]
    show tf + (X % 1000000000).toNat - 1000000000 < 1000000000
    omega
  · rw [if_neg hc]
    show tf + (X % 1000000000).toNat < 1000000000
    omega

/-- Witness for C10 at `03:05:07.900 + 100 ms`. -/
theorem c10_add_no_leap_entry_witness :
    (TimeZ.add ⟨3, 5, 7, 900000000⟩ (Duration.milliseconds 100)).frac <
      1000000000 :=
  c10_add_no_leap_entry ⟨3, 5, 7, 900000000⟩ (Duration.milliseconds 100)
    (by decide) (by decide)

end Chrono
